import Mathlib

/-!
Verification of the image-ingestion pipeline of `src/app.js` (blog-2.0).

The pipeline (multer filter and size limit → `processImage`: decode via
sharp, conditional resize, WebP re-encode, write to `uploads/`, stat the
written file, report) is embedded shallowly.  The external sharp library's
decode and encode steps are an oracle record of functions; durable storage
is an association list from filename to byte list; JavaScript numbers are
`Nat`; every fallible step returns through `Except`/`Option`, mirroring the
single try/catch of `processImage`.
-/

/-- Bytes of a file, each byte a natural number. -/
abbrev ByteSeq := List Nat

/-- The durable storage area (the `uploads/` directory): filename to bytes. -/
abbrev Storage := List (String × ByteSeq)

/-- Writing a file: the new binding shadows any previous one. -/
def storageWrite (st : Storage) (name : String) (bytes : ByteSeq) : Storage :=
  (name, bytes) :: st

/-- Reading a file back from storage by name. -/
def storageLookup (st : Storage) (name : String) : Option ByteSeq :=
  st.lookup name

/-- src/app.js line 67: max width for blog images. -/
def maxWidth : Nat := 1920

/-- src/app.js line 68: max height for blog images. -/
def maxHeight : Nat := 1080

/-- src/app.js line 69: WebP quality setting. -/
def targetQuality : Nat := 85

/-- src/app.js line 37: multer fileSize limit, 50 MiB. -/
def uploadSizeLimit : Nat := 50 * 1024 * 1024

/-- Node `path.basename` directory stripping (posix): the part of the path
after the last slash. -/
def afterLastSlash (s : List Char) : List Char :=
  (s.reverse.takeWhile (fun c => c ≠ '/')).reverse

/-- Node `path.extname` for ordinary filenames: the suffix of the basename
starting at its last dot; empty when there is no dot or when the only dot
leads a dotfile. -/
def extnameChars (s : List Char) : List Char :=
  let b := afterLastSlash s
  let tail := b.reverse.takeWhile (fun c => c ≠ '.')
  if tail.length = b.length then []
  else if tail.length + 1 = b.length then []
  else b.drop (b.length - tail.length - 1)

/-- JavaScript `toLowerCase` restricted to the ASCII range, which covers
filename extensions. -/
def lowerChars (s : List Char) : List Char := s.map Char.toLower

/-- Node `path.basename(p, ext)`: strip the directory part, then strip
`ext` when it is a proper suffix of the remaining name (the comparison is
exact, hence case-sensitive). -/
def basenameChars (s e : List Char) : List Char :=
  let b := afterLastSlash s
  if e ≠ [] ∧ e.isSuffixOf b ∧ b ≠ e then b.take (b.length - e.length) else b

/-- src/app.js lines 52–58: the stored filename.  `fileExtension` is
`path.extname(originalName).toLowerCase()`, `baseName` is
`path.basename(originalName, fileExtension)`, and the name is
`timestamp + "-" + uniqueSuffix + "-" + baseName + ".webp"`. -/
def makeOutputFilename (timestamp uniqueSuffix : Nat) (originalName : String) : String :=
  let fileExtension := lowerChars (extnameChars originalName.data)
  let baseName := basenameChars originalName.data fileExtension
  toString timestamp ++ "-" ++ toString uniqueSuffix ++ "-" ++ String.mk baseName ++ ".webp"

/-- `sharp(buffer).metadata()`: the decoded image's intrinsic dimensions. -/
structure ImageMetadata where
  width : Nat
  height : Nat
deriving DecidableEq

/-- The record returned by `processImage` (src/app.js lines 94–100). -/
structure IngestionResult where
  filename : String
  originalName : String
  size : Nat
  width : Nat
  height : Nat
deriving DecidableEq

/-- The external sharp library and the filesystem behaviour of its
`toFile` call and of the subsequent stat, as an oracle.  `decode` is
`sharp(buffer).metadata()` (`none` models a rejected promise on a corrupt
or unsupported payload).  `encodeWebP buffer resized` is the byte output
of `.webp(quality 85, effort 6).toFile(outputPath)`, with the
`.resize(1920, 1080, fit inside)` stage applied when `resized` is true;
`none` models a rejected promise.  `toFile` writes directly to the final
output path and the repository code performs no cleanup on failure, and
whether a rejected `toFile` has already left bytes at that path is
internal to the library — `rejectLeftover` is what a rejected call leaves
there (`none` for nothing, `some bs` for a partial file).  `statOk` is
whether `fs.promises.stat` on the written path resolves after a
successful write. -/
structure SharpOracle where
  decode : ByteSeq → Option ImageMetadata
  encodeWebP : ByteSeq → Bool → Option ByteSeq
  rejectLeftover : Option ByteSeq
  statOk : Bool

/-- The single error message rethrown by `processImage`'s catch block
(src/app.js line 104). -/
def processErrorMsg : String := "Failed to process image. Please try a different image."

/-- What a rejected `toFile` call leaves in storage at the output path:
nothing, or the partial bytes the library had already written — the
repository code cleans up neither. -/
def leftoverWrite (st : Storage) (name : String) : Option ByteSeq → Storage
  | none => st
  | some bs => storageWrite st name bs

/-- src/app.js lines 50–106: allocate the output filename, probe metadata,
conditionally resize, encode to WebP and write with a single `toFile`
directly to the final output path (no temporary location, no rename),
stat the written file, and report.  Every rejection lands in the one
catch block (lines 102–105), which rethrows the single error message and
performs no cleanup: a rejected `toFile` leaves whatever the library left
at the output path, and a rejected stat after a successful write leaves
the written file in place.  Returns the result (or the single structured
error) together with the final storage state. -/
def processImage (sh : SharpOracle) (timestamp uniqueSuffix : Nat)
    (st : Storage) (buffer : ByteSeq) (originalName : String) :
    Except String IngestionResult × Storage :=
  let outputFilename := makeOutputFilename timestamp uniqueSuffix originalName
  match sh.decode buffer with
  | none => (.error processErrorMsg, st)
  | some metadata =>
      let needsResize : Bool :=
        decide (maxWidth < metadata.width) || decide (maxHeight < metadata.height)
      match sh.encodeWebP buffer needsResize with
      | none => (.error processErrorMsg, leftoverWrite st outputFilename sh.rejectLeftover)
      | some outBytes =>
          let st2 := storageWrite st outputFilename outBytes
          if sh.statOk then
            let statSize := ((storageLookup st2 outputFilename).getD []).length
            (.ok { filename := outputFilename
                   originalName := originalName
                   size := statSize
                   width := if maxWidth < metadata.width then maxWidth else metadata.width
                   height := if maxHeight < metadata.height then maxHeight else metadata.height },
             st2)
          else
            (.error processErrorMsg, st2)

/-- The computed output dimensions and whether scaling occurred. -/
structure ResizeTarget where
  width : Nat
  height : Nat
  wasResized : Bool
deriving DecidableEq

/-- Round `a / b` to the nearest integer, halves rounding up. -/
def roundDiv (a b : Nat) : Nat := (2 * a + b) / (2 * b)

/-- Modelled from the spec: src/app.js lines 72–77 delegate the resize
arithmetic to the external sharp library
(`.resize(1920, 1080, fit inside, withoutEnlargement)`), whose code is not
part of this repository.  The outer condition (resize only when a source
dimension exceeds its maximum) is src/app.js line 72; the scaled branch
follows spec §4.2: scale factor `min(maxWidth/sourceWidth,
maxHeight/sourceHeight)`, each dimension rounded to the nearest integer
and at least 1. -/
def resizePolicy (w h : Nat) : ResizeTarget :=
  if maxWidth < w ∨ maxHeight < h then
    if maxWidth * h ≤ maxHeight * w then
      ⟨maxWidth, max (roundDiv (h * maxWidth) w) 1, true⟩
    else
      ⟨max (roundDiv (w * maxHeight) h) 1, maxHeight, true⟩
  else
    ⟨w, h, false⟩

/-- The output dimensions preserve the source aspect ratio within a
rounding tolerance of one pixel: either the height is within one pixel of
`outW * srcH / srcW` (first disjunct, scaled through by `srcW`), or the
width is within one pixel of `outH * srcW / srcH` (second disjunct, scaled
through by `srcH`). -/
def aspectWithinOnePixel (srcW srcH outW outH : Nat) : Prop :=
  (outH * srcW ≤ outW * srcH + srcW ∧ outW * srcH ≤ outH * srcW + srcW) ∨
  (outW * srcH ≤ outH * srcW + srcH ∧ outH * srcW ≤ outW * srcH + srcH)

/-- One uploaded file as multer's memory storage presents it. -/
structure UploadFile where
  buffer : ByteSeq
  originalname : String
  mimetype : String

/-- src/app.js line 41: the fileFilter condition
`file.mimetype.startsWith('image/')`. -/
def mimetypeIsImage (m : String) : Bool :=
  "image/".data.isPrefixOf m.data

/-- The observable replies of the upload endpoint. -/
inductive UploadReply where
  | filterError (message : String)
  | limitError
  | badRequest (error : String)
  | serverError (error : String)
  | success (url filename originalName : String) (size : Nat)
      (dimensions : String) (message : String)
deriving DecidableEq

/-- HTTP status of each reply: multer errors and processing errors surface
as 500, the missing-file guard as 400, success as 200. -/
def replyStatus : UploadReply → Nat
  | .filterError _ => 500
  | .limitError => 500
  | .badRequest _ => 400
  | .serverError _ => 500
  | .success _ _ _ _ _ _ => 200

/-- src/app.js lines 34–47: multer's checks on a present file.  The
fileFilter (mimetype) decision is taken when the file is opened, before
the streamed byte count can trip the fileSize limit, matching spec §4.5
step 1 before step 2. -/
def multerGate (f : UploadFile) : Option UploadReply :=
  if mimetypeIsImage f.mimetype = false then
    some (.filterError "Only image files are allowed!")
  else if uploadSizeLimit < f.buffer.length then
    some .limitError
  else
    none

/-- src/app.js lines 355–379: the upload route.  No file present yields a
400 with error "No file uploaded"; a multer rejection surfaces as is;
otherwise `processImage` runs and its result is packaged, with the
dimensions string `width + "x" + height`. -/
def uploadEndpoint (sh : SharpOracle) (timestamp uniqueSuffix : Nat)
    (st : Storage) (file : Option UploadFile) : UploadReply × Storage :=
  match file with
  | none => (.badRequest "No file uploaded", st)
  | some f =>
      match multerGate f with
      | some reply => (reply, st)
      | none =>
          match processImage sh timestamp uniqueSuffix st f.buffer f.originalname with
          | (.error msg, st2) => (.serverError msg, st2)
          | (.ok r, st2) =>
              (.success ("/uploads/" ++ r.filename) r.filename r.originalName r.size
                 (toString r.width ++ "x" ++ toString r.height)
                 "Image uploaded and optimized successfully", st2)

/-- A concrete oracle for witnesses: decodes every buffer to the given
dimensions; encodes to the one-byte output `[0]` when `encodeOk` and
rejects leaving nothing otherwise; the stat after a successful write
resolves when `stOk`. -/
def mkOracle (w h : Nat) (encodeOk stOk : Bool) : SharpOracle where
  decode := fun _ => some ⟨w, h⟩
  encodeWebP := fun _ _ => if encodeOk then some [0] else none
  rejectLeftover := none
  statOk := stOk

/-- A 60 MiB text file, used to exercise the size limit together with the
mimetype filter. -/
def bigTextFile : UploadFile :=
  ⟨List.replicate (60 * 1024 * 1024) 0, "big.txt", "text/plain"⟩

/-- A 60 MiB file with an image mimetype. -/
def bigImageFile : UploadFile :=
  ⟨List.replicate (60 * 1024 * 1024) 0, "big.png", "image/png"⟩

/-! ## Arithmetic helpers for the rounding division -/

/-- `roundDiv a b` never overshoots a bound `n` that dominates the exact
quotient. -/
lemma roundDiv_le (a b n : Nat) (hb : 0 < b) (hab : a ≤ b * n) : roundDiv a b ≤ n := by
  unfold roundDiv
  have key : 2 * a + b < 2 * b * (n + 1) := by
    have e : 2 * b * (n + 1) = 2 * (b * n) + 2 * b := by ring
    rw [e]
    generalize b * n = m at hab ⊢
    omega
  exact Nat.le_of_lt_succ (Nat.div_lt_of_lt_mul key)

/-- `roundDiv a b * b` is within `b` of `a` (in fact within `b / 2`): the
rounding error of the quotient is at most one. -/
lemma roundDiv_near (a b : Nat) (hb : 0 < b) :
    roundDiv a b * b ≤ a + b ∧ a ≤ roundDiv a b * b + b := by
  have hdm : 2 * b * ((2 * a + b) / (2 * b)) + (2 * a + b) % (2 * b) = 2 * a + b :=
    Nat.div_add_mod (2 * a + b) (2 * b)
  have hlt : (2 * a + b) % (2 * b) < 2 * b := Nat.mod_lt _ (by omega)
  unfold roundDiv
  have e : 2 * b * ((2 * a + b) / (2 * b)) = 2 * ((2 * a + b) / (2 * b) * b) := by ring
  rw [e] at hdm
  generalize hp : (2 * a + b) / (2 * b) * b = p at hdm ⊢
  generalize hr : (2 * a + b) % (2 * b) = r at hdm hlt
  omega

/-- The clamp to a minimum of one keeps the rounded dimension within one
unit of the exact scaled value. -/
lemma max_roundDiv_near (a b : Nat) (hb : 0 < b) :
    max (roundDiv a b) 1 * b ≤ a + b ∧ a ≤ max (roundDiv a b) 1 * b + b := by
  obtain ⟨h1, h2⟩ := roundDiv_near a b hb
  rcases Nat.eq_zero_or_pos (roundDiv a b) with h0 | hpos
  · rw [h0] at h1 h2 ⊢
    simp only [Nat.zero_max, Nat.one_mul, Nat.zero_mul] at *
    omega
  · rw [Nat.max_eq_left hpos]
    exact ⟨h1, h2⟩

/-! ## Bounds of the resize policy -/

/-- The computed width never exceeds `maxWidth`. -/
lemma resizePolicy_width_le (w h : Nat) (hw : 0 < w) (hh : 0 < h) :
    (resizePolicy w h).width ≤ maxWidth := by
  unfold resizePolicy
  split
  · split
    · exact Nat.le_refl _
    · rename_i hover hc
      have hlt : maxHeight * w < maxWidth * h := Nat.not_le.mp hc
      have h1 : roundDiv (w * maxHeight) h ≤ maxWidth := by
        apply roundDiv_le _ _ _ hh
        calc w * maxHeight = maxHeight * w := Nat.mul_comm _ _
          _ ≤ maxWidth * h := Nat.le_of_lt hlt
          _ = h * maxWidth := Nat.mul_comm _ _
      exact max_le h1 (by decide)
  · rename_i hcond
    simp only
    omega

/-- The computed height never exceeds `maxHeight`. -/
lemma resizePolicy_height_le (w h : Nat) (hw : 0 < w) (hh : 0 < h) :
    (resizePolicy w h).height ≤ maxHeight := by
  unfold resizePolicy
  split
  · split
    · rename_i hover hc
      have h1 : roundDiv (h * maxWidth) w ≤ maxHeight := by
        apply roundDiv_le _ _ _ hw
        calc h * maxWidth = maxWidth * h := Nat.mul_comm _ _
          _ ≤ maxHeight * w := hc
          _ = w * maxHeight := Nat.mul_comm _ _
      exact max_le h1 (by decide)
    · exact Nat.le_refl _
  · rename_i hcond
    simp only
    omega

/-! ## Claim theorems: resize policy -/

/-- Claim C3: a source image with `sourceWidth ≤ 1920` and
`sourceHeight ≤ 1080` is left unchanged by the resize policy
(`wasResized = false`), and the policy is idempotent: reapplying it to the
dimensions it produced yields the same dimensions with
`wasResized = false`. -/
theorem resizePolicy_identity_and_idempotent (w h : Nat) (hw : 0 < w) (hh : 0 < h) :
    (w ≤ maxWidth → h ≤ maxHeight → resizePolicy w h = ⟨w, h, false⟩) ∧
    resizePolicy (resizePolicy w h).width (resizePolicy w h).height
      = ⟨(resizePolicy w h).width, (resizePolicy w h).height, false⟩ := by
  constructor
  · intro h1 h2
    unfold resizePolicy
    rw [if_neg (by omega)]
  · have hW := resizePolicy_width_le w h hw hh
    have hH := resizePolicy_height_le w h hw hh
    set W := (resizePolicy w h).width with hWd
    set H := (resizePolicy w h).height with hHd
    unfold resizePolicy
    rw [if_neg (show ¬(maxWidth < W ∨ maxHeight < H) by omega)]

/-- Witness for C3 at the spec's 800×600 example. -/
theorem resizePolicy_identity_and_idempotent_witness :
    (0 : Nat) < 800 ∧ (0 : Nat) < 600 ∧
    ((800 ≤ maxWidth → 600 ≤ maxHeight → resizePolicy 800 600 = ⟨800, 600, false⟩) ∧
      resizePolicy (resizePolicy 800 600).width (resizePolicy 800 600).height
        = ⟨(resizePolicy 800 600).width, (resizePolicy 800 600).height, false⟩) :=
  ⟨by decide, by decide,
    resizePolicy_identity_and_idempotent 800 600 (by decide) (by decide)⟩

/-- Claim C4: when a source dimension exceeds its maximum, the policy
reports `wasResized = true`, both output dimensions respect the maxima,
and the source aspect ratio is preserved within a rounding tolerance of
one pixel.  The output dimensions are, by definition of the policy, the
per-dimension roundings (minimum 1) of the source scaled by
`min(1920/sourceWidth, 1080/sourceHeight)`. -/
theorem resizePolicy_overflow_scales (w h : Nat) (hw : 0 < w) (hh : 0 < h)
    (hover : maxWidth < w ∨ maxHeight < h) :
    (resizePolicy w h).wasResized = true ∧
    (resizePolicy w h).width ≤ maxWidth ∧
    (resizePolicy w h).height ≤ maxHeight ∧
    aspectWithinOnePixel w h (resizePolicy w h).width (resizePolicy w h).height := by
  refine ⟨?_, resizePolicy_width_le w h hw hh, resizePolicy_height_le w h hw hh, ?_⟩
  · unfold resizePolicy
    rw [if_pos hover]
    split <;> rfl
  · unfold aspectWithinOnePixel resizePolicy
    rw [if_pos hover]
    split
    · left
      simp only
      rw [Nat.mul_comm maxWidth h]
      exact max_roundDiv_near (h * maxWidth) w hw
    · right
      simp only
      rw [Nat.mul_comm maxHeight w]
      exact max_roundDiv_near (w * maxHeight) h hh

/-- Witness for C4 at the spec's 4000×2000 example. -/
theorem resizePolicy_overflow_scales_witness :
    (0 : Nat) < 4000 ∧ (0 : Nat) < 2000 ∧ (maxWidth < 4000 ∨ maxHeight < 2000) ∧
    ((resizePolicy 4000 2000).wasResized = true ∧
      (resizePolicy 4000 2000).width ≤ maxWidth ∧
      (resizePolicy 4000 2000).height ≤ maxHeight ∧
      aspectWithinOnePixel 4000 2000 (resizePolicy 4000 2000).width
        (resizePolicy 4000 2000).height) :=
  ⟨by decide, by decide, by decide,
    resizePolicy_overflow_scales 4000 2000 (by decide) (by decide) (by decide)⟩

/-! ## The success path of processImage -/

/-- When decode and encode both succeed, `processImage` writes the encoded
bytes under the allocated filename and reports the re-measured size and
the per-dimension clamped metadata. -/
lemma processImage_ok (sh : SharpOracle) (t r : Nat) (st : Storage)
    (buffer : ByteSeq) (name : String) (md : ImageMetadata) (bs : ByteSeq)
    (hdec : sh.decode buffer = some md)
    (henc : sh.encodeWebP buffer
      (decide (maxWidth < md.width) || decide (maxHeight < md.height)) = some bs)
    (hstat : sh.statOk = true) :
    processImage sh t r st buffer name =
      (.ok { filename := makeOutputFilename t r name
             originalName := name
             size := bs.length
             width := if maxWidth < md.width then maxWidth else md.width
             height := if maxHeight < md.height then maxHeight else md.height },
       storageWrite st (makeOutputFilename t r name) bs) := by
  simp only [processImage, hdec, henc, hstat, if_true, storageLookup, storageWrite,
    List.lookup, beq_self_eq_true, cond_true, Option.getD_some]

/-! ## Claim theorems: reported metadata and failure behaviour -/

/-- Claim C1: a successful ingestion reports
`width = min(sourceWidth, 1920)` and `height = min(sourceHeight, 1080)`,
the per-dimension clamped maxima of the decoded metadata (src/app.js
lines 98–99), not the post-aspect-ratio stored dimensions. -/
theorem reported_dimensions_are_clamped_maxima (sh : SharpOracle) (t r : Nat)
    (st : Storage) (buffer : ByteSeq) (name : String) (md : ImageMetadata)
    (res : IngestionResult) (st2 : Storage)
    (hdec : sh.decode buffer = some md)
    (hok : processImage sh t r st buffer name = (.ok res, st2)) :
    res.width = min md.width maxWidth ∧ res.height = min md.height maxHeight := by
  cases henc : sh.encodeWebP buffer
      (decide (maxWidth < md.width) || decide (maxHeight < md.height)) with
  | none =>
      simp only [processImage, hdec, henc] at hok
      exact absurd (congrArg Prod.fst hok) (by simp)
  | some bs =>
      cases hstat : sh.statOk with
      | false =>
          simp only [processImage, hdec, henc, hstat, if_false] at hok
          exact absurd (congrArg Prod.fst hok) (by simp)
      | true =>
          rw [processImage_ok sh t r st buffer name md bs hdec henc hstat] at hok
          injection hok with h1 h2
          injection h1 with h1
          rw [← h1]
          constructor <;> simp only <;> split <;> omega

/-- Witness for C1: a 4000×2000 source is reported as 1920×1080. -/
theorem reported_dimensions_are_clamped_maxima_witness :
    (mkOracle 4000 2000 true true).decode [0] = some ⟨4000, 2000⟩ ∧
    processImage (mkOracle 4000 2000 true true) 0 0 [] [0] "a.jpg"
      = (.ok ⟨"0-0-a.webp", "a.jpg", 1, 1920, 1080⟩, [("0-0-a.webp", [0])]) ∧
    ((1920 : Nat) = min 4000 maxWidth ∧ (1080 : Nat) = min 2000 maxHeight) :=
  ⟨rfl, rfl,
    reported_dimensions_are_clamped_maxima (mkOracle 4000 2000 true true) 0 0 [] [0]
      "a.jpg" ⟨4000, 2000⟩ ⟨"0-0-a.webp", "a.jpg", 1, 1920, 1080⟩
      [("0-0-a.webp", [0])] rfl rfl⟩

/-- Counterexample to claim C5 as stated: the write goes directly to the
final stored filename (no temporary location, no rename) and the catch
block cleans nothing up, so when `fs.promises.stat` rejects after a
successful write — a failing ingestion step — the call surfaces the
single structured error while the written file remains in durable
storage under the final stored filename. -/
theorem stat_failure_leaves_file_under_stored_name :
    processImage (mkOracle 100 100 true false) 0 0 [] [0] "a.jpg"
      = (.error processErrorMsg, [("0-0-a.webp", [0])]) ∧
    storageLookup [("0-0-a.webp", [0])] (makeOutputFilename 0 0 "a.jpg")
      = some [0] :=
  ⟨rfl, rfl⟩

/-- Claim C5 as amended: an ingestion step that fails before anything has
been written under the final stored filename — a decode failure, or a
re-encoder/`toFile` rejection that left nothing at the output path —
surfaces the single structured error of the catch block and leaves
durable storage exactly as it was; the write itself is direct to the
final name with no cleanup on later failure. -/
theorem prewrite_failure_leaves_storage_unchanged (sh : SharpOracle) (t r : Nat)
    (st : Storage) (buffer : ByteSeq) (name : String)
    (h : sh.decode buffer = none ∨
      ((∃ md, sh.decode buffer = some md ∧
          sh.encodeWebP buffer
            (decide (maxWidth < md.width) || decide (maxHeight < md.height)) = none) ∧
        sh.rejectLeftover = none)) :
    processImage sh t r st buffer name = (.error processErrorMsg, st) := by
  rcases h with hdec | ⟨⟨md, hdec, henc⟩, hleft⟩
  · simp only [processImage, hdec]
  · simp only [processImage, hdec, henc, hleft, leftoverWrite]

/-- Witness for the amended C5: an oracle whose encoder rejects leaving
nothing at the output path. -/
theorem prewrite_failure_leaves_storage_unchanged_witness :
    ((mkOracle 100 100 false true).decode [0] = none ∨
      ((∃ md, (mkOracle 100 100 false true).decode [0] = some md ∧
          (mkOracle 100 100 false true).encodeWebP [0]
            (decide (maxWidth < md.width) || decide (maxHeight < md.height)) = none) ∧
        (mkOracle 100 100 false true).rejectLeftover = none)) ∧
    processImage (mkOracle 100 100 false true) 5 6 [("keep.webp", [1])] [0] "c.jpg"
      = (.error processErrorMsg, [("keep.webp", [1])]) :=
  ⟨Or.inr ⟨⟨⟨100, 100⟩, rfl, rfl⟩, rfl⟩,
    prewrite_failure_leaves_storage_unchanged (mkOracle 100 100 false true) 5 6
      [("keep.webp", [1])] [0] "c.jpg"
      (Or.inr ⟨⟨⟨100, 100⟩, rfl, rfl⟩, rfl⟩)⟩

/-- Claim C7: the reported byte size of a successful ingestion is the
re-measured size of the persisted file: looking the stored filename up in
the final storage yields bytes whose length is exactly the reported
`size` (src/app.js lines 87–97 stat the written path). -/
theorem reported_size_is_remeasured_from_storage (sh : SharpOracle) (t r : Nat)
    (st : Storage) (buffer : ByteSeq) (name : String)
    (res : IngestionResult) (st2 : Storage)
    (hok : processImage sh t r st buffer name = (.ok res, st2)) :
    (storageLookup st2 res.filename).map List.length = some res.size := by
  cases hdec : sh.decode buffer with
  | none =>
      simp only [processImage, hdec] at hok
      exact absurd (congrArg Prod.fst hok) (by simp)
  | some md =>
      cases henc : sh.encodeWebP buffer
          (decide (maxWidth < md.width) || decide (maxHeight < md.height)) with
      | none =>
          simp only [processImage, hdec, henc] at hok
          exact absurd (congrArg Prod.fst hok) (by simp)
      | some bs =>
          cases hstat : sh.statOk with
          | false =>
              simp only [processImage, hdec, henc, hstat, if_false] at hok
              exact absurd (congrArg Prod.fst hok) (by simp)
          | true =>
              rw [processImage_ok sh t r st buffer name md bs hdec henc hstat] at hok
              injection hok with h1 h2
              injection h1 with h1
              rw [← h1, ← h2]
              simp only [storageLookup, storageWrite, List.lookup, beq_self_eq_true,
                cond_true]
              rfl

/-- Witness for C7 on a concrete successful ingestion. -/
theorem reported_size_is_remeasured_from_storage_witness :
    processImage (mkOracle 10 20 true true) 7 8 [] [0] "b.jpg"
      = (.ok ⟨"7-8-b.webp", "b.jpg", 1, 10, 20⟩, [("7-8-b.webp", [0])]) ∧
    (storageLookup [("7-8-b.webp", [0])] "7-8-b.webp").map List.length = some 1 :=
  ⟨rfl,
    reported_size_is_remeasured_from_storage (mkOracle 10 20 true true) 7 8 [] [0]
      "b.jpg" ⟨"7-8-b.webp", "b.jpg", 1, 10, 20⟩ [("7-8-b.webp", [0])] rfl⟩

/-! ## Claim theorems: the 4000×2000 end-to-end example -/

/-- Counterexample to claim C2: ingesting a 4000×2000 image produces the
response dimensions string "1920x1080" (each dimension clamped
independently at src/app.js lines 98–99), not "1920x960". -/
theorem upload_4000x2000_response_dimensions_not_960 :
    (uploadEndpoint (mkOracle 4000 2000 true true) 0 0 []
        (some ⟨[0], "photo.jpg", "image/jpeg"⟩)).1
      = .success "/uploads/0-0-photo.webp" "0-0-photo.webp" "photo.jpg" 1
          "1920x1080" "Image uploaded and optimized successfully" ∧
    ("1920x1080" : String) ≠ "1920x960" :=
  ⟨rfl, by decide⟩

/-- Claim C2 as amended: a successful ingestion of a 4000×2000 source
reports the dimensions string "1920x1080" — the clamped maxima — while
the resize policy's true stored dimensions for that source are 1920×960
(scale factor 0.48). -/
theorem upload_4000x2000_reports_clamped_string (sh : SharpOracle) (t r : Nat)
    (st : Storage) (buffer : ByteSeq) (name : String)
    (res : IngestionResult) (st2 : Storage)
    (hdec : sh.decode buffer = some ⟨4000, 2000⟩)
    (hok : processImage sh t r st buffer name = (.ok res, st2)) :
    toString res.width ++ "x" ++ toString res.height = "1920x1080" ∧
    resizePolicy 4000 2000 = ⟨1920, 960, true⟩ := by
  refine ⟨?_, by decide⟩
  cases henc : sh.encodeWebP buffer
      (decide (maxWidth < (4000 : Nat)) || decide (maxHeight < (2000 : Nat))) with
  | none =>
      simp only [processImage, hdec, henc] at hok
      exact absurd (congrArg Prod.fst hok) (by simp)
  | some bs =>
      cases hstat : sh.statOk with
      | false =>
          simp only [processImage, hdec, henc, hstat, if_false] at hok
          exact absurd (congrArg Prod.fst hok) (by simp)
      | true =>
          rw [processImage_ok sh t r st buffer name ⟨4000, 2000⟩ bs hdec henc hstat] at hok
          injection hok with h1 h2
          injection h1 with h1
          have hwid : res.width = 1920 := by rw [← h1]; rfl
          have hhei : res.height = 1080 := by rw [← h1]; rfl
          rw [hwid, hhei]
          rfl

/-- Witness for the amended C2 on a concrete oracle. -/
theorem upload_4000x2000_reports_clamped_string_witness :
    (mkOracle 4000 2000 true true).decode [0] = some ⟨4000, 2000⟩ ∧
    processImage (mkOracle 4000 2000 true true) 0 0 [] [0] "photo.jpg"
      = (.ok ⟨"0-0-photo.webp", "photo.jpg", 1, 1920, 1080⟩,
         [("0-0-photo.webp", [0])]) ∧
    (toString (1920 : Nat) ++ "x" ++ toString (1080 : Nat) = "1920x1080" ∧
      resizePolicy 4000 2000 = ⟨1920, 960, true⟩) :=
  ⟨rfl, rfl,
    upload_4000x2000_reports_clamped_string (mkOracle 4000 2000 true true) 0 0 [] [0]
      "photo.jpg" ⟨"0-0-photo.webp", "photo.jpg", 1, 1920, 1080⟩
      [("0-0-photo.webp", [0])] rfl rfl⟩

/-! ## Claim theorems: filename allocation -/

/-- Claim C6, evaluated at the failing input: because src/app.js line 52
lowercases the extension before handing it to `path.basename`, an
uppercase extension is not stripped — `photo.JPG` is stored as
`<t>-<r>-photo.JPG.webp`, while a lowercase `photo.jpg` is stripped to
`<t>-<r>-photo.webp` as the claim describes for every filename. -/
theorem storedFilename_keeps_uppercase_extension :
    makeOutputFilename 1700000000000 123456789 "photo.JPG"
      = "1700000000000-123456789-photo.JPG.webp" ∧
    makeOutputFilename 1700000000000 123456789 "photo.jpg"
      = "1700000000000-123456789-photo.webp" :=
  ⟨rfl, rfl⟩

/-! ## Claim theorems: the upload endpoint's rejections -/

/-- Claim C8: a file whose declared media type does not start with
`image/` is rejected by multer's fileFilter with the NotAnImage-class
error, storage is untouched, and — the right-hand side being independent
of the sharp oracle — no decode is attempted. -/
theorem nonimage_mimetype_rejected (sh : SharpOracle) (t r : Nat) (st : Storage)
    (f : UploadFile) (hm : mimetypeIsImage f.mimetype = false) :
    uploadEndpoint sh t r st (some f)
      = (.filterError "Only image files are allowed!", st) := by
  simp [uploadEndpoint, multerGate, hm]

/-- Witness for C8 at the spec's `text/plain` example. -/
theorem nonimage_mimetype_rejected_witness :
    mimetypeIsImage "text/plain" = false ∧
    uploadEndpoint (mkOracle 1 1 true true) 0 0 [] (some ⟨[0], "note.txt", "text/plain"⟩)
      = (.filterError "Only image files are allowed!", []) :=
  ⟨rfl,
    nonimage_mimetype_rejected (mkOracle 1 1 true true) 0 0 []
      ⟨[0], "note.txt", "text/plain"⟩ rfl⟩

/-- Counterexample to claim C9 as stated: a 60 MiB upload whose declared
type is `text/plain` is over the size limit, yet it is rejected by the
mimetype filter (NotAnImage class), not by the size limit
(PayloadTooLarge class), because the fileFilter decision precedes the
byte-count check. -/
theorem oversize_nonimage_rejected_as_not_image :
    uploadSizeLimit < bigTextFile.buffer.length ∧
    (uploadEndpoint (mkOracle 1 1 true true) 0 0 [] (some bigTextFile)).1
      = .filterError "Only image files are allowed!" ∧
    (uploadEndpoint (mkOracle 1 1 true true) 0 0 [] (some bigTextFile)).1
      ≠ .limitError := by
  refine ⟨?_, rfl, ?_⟩
  · simp only [bigTextFile, List.length_replicate, uploadSizeLimit]
    norm_num
  · exact (show (UploadReply.filterError "Only image files are allowed!")
      ≠ .limitError by decide)

/-- Claim C9 as amended: an upload whose declared media type indicates an
image and whose raw byte length exceeds 50 MiB is rejected by multer's
size limit (PayloadTooLarge class) with storage untouched; the right-hand
side is independent of the sharp oracle, so no decode is attempted. -/
theorem oversized_image_upload_rejected_by_limit (sh : SharpOracle) (t r : Nat)
    (st : Storage) (f : UploadFile) (hm : mimetypeIsImage f.mimetype = true)
    (hs : uploadSizeLimit < f.buffer.length) :
    uploadEndpoint sh t r st (some f) = (.limitError, st) := by
  simp [uploadEndpoint, multerGate, hm, hs]

/-- Witness for the amended C9: a 60 MiB `image/png` upload. -/
theorem oversized_image_upload_rejected_by_limit_witness :
    mimetypeIsImage "image/png" = true ∧
    uploadSizeLimit < bigImageFile.buffer.length ∧
    uploadEndpoint (mkOracle 1 1 true true) 0 0 [] (some bigImageFile)
      = (.limitError, []) := by
  have hs : uploadSizeLimit < bigImageFile.buffer.length := by
    simp only [bigImageFile, List.length_replicate, uploadSizeLimit]
    norm_num
  exact ⟨rfl, hs,
    oversized_image_upload_rejected_by_limit (mkOracle 1 1 true true) 0 0 []
      bigImageFile rfl hs⟩

/-- Claim C10: invoking the upload endpoint with no file present returns
HTTP 400 with the body error "No file uploaded", touches no storage, and
— the reply being independent of the sharp oracle — performs no image
processing. -/
theorem missing_file_returns_400 (sh : SharpOracle) (t r : Nat) (st : Storage) :
    uploadEndpoint sh t r st none = (.badRequest "No file uploaded", st) ∧
    replyStatus (uploadEndpoint sh t r st none).1 = 400 :=
  ⟨rfl, rfl⟩
